import Mathlib

/-!
Verification of the changelog store and renderer (`src/changelog.py`).

This file gives a shallow embedding of the core logic of the changelog
application — `load_changelog`, `save_changelog`, `add_entry`, `edit_entry`,
`delete_entry` and `generate_html_file` — and proves the specification's
claims about them.

Modelling decisions, all traceable to the Python source:

* An `Entry` is a record with the three string fields `timestamp`,
  `operation`, `text`, exactly the dictionaries the program writes with
  `json.dump`.
* The backing file (`changelog.json`) is modelled by `Doc`: it may be
  missing, hold unparsable bytes (where `json.load` raises
  `json.JSONDecodeError`), hold valid JSON that is *not* a list (where
  `json.load` succeeds but `entries.sort(...)` raises an uncaught
  `AttributeError` — e.g. a file whose contents are `{}`), or hold a
  well-formed list of entry records.
* Python exceptions that escape a function are modelled with
  `Except PyError`; `messagebox` calls carry no data and are modelled by the
  boolean result the function returns together with the unchanged/changed
  document.
* `list.sort(key=lambda x: x['timestamp'], reverse=True)` is a stable
  descending sort on the `timestamp` strings (code-point lexicographic
  comparison, the same order as Lean's `String` order); it is embedded as a
  stable insertion sort `sortDesc`.
* The system clock is a parameter: `datetime.datetime.now()` is modelled by
  passing the `DateTime` value read from the clock during the call.
-/

/-- One changelog record: the dictionary
`{"timestamp": ..., "operation": ..., "text": ...}` stored in
`changelog.json`. -/
structure Entry where
  timestamp : String
  operation : String
  text : String
deriving Repr, DecidableEq

/-- The state of the backing document `changelog.json` as `load_changelog`
can encounter it.

* `missing` — `os.path.exists(CHANGELOG_FILE)` is false.
* `unparsable` — the file exists but `json.load` raises
  `json.JSONDecodeError` (invalid JSON bytes).
* `nonList` — the file exists and `json.load` succeeds, but the parsed value
  is not a Python list (for example the file contains `{}` or `42`); then
  `entries.sort(...)` raises `AttributeError`, which `load_changelog` does
  not catch.
* `entryList es` — the file holds a JSON array of well-formed entry
  records. -/
inductive Doc where
  | missing
  | unparsable
  | nonList
  | entryList (es : List Entry)
deriving Repr, DecidableEq

/-- Python exceptions that can escape the embedded functions. -/
inductive PyError where
  /-- Python `AttributeError`, e.g. from calling `.sort` on a non-list. -/
  | attributeError
  /-- Python `ValueError`, e.g. from `datetime.fromisoformat` on a malformed
  string. -/
  | valueError
deriving Repr, DecidableEq

/-- Python `str.isspace` on a single character (the whitespace set used by
`str.strip()` with no arguments). -/
def isPythonSpace (c : Char) : Bool :=
  c = ' ' || c = '\t' || c = '\n' || c = '\r' || c = '\x0b' || c = '\x0c' ||
  (0x1c ≤ c.toNat && c.toNat ≤ 0x1f) ||
  c.toNat = 0x85 || c.toNat = 0xa0 || c.toNat = 0x1680 ||
  (0x2000 ≤ c.toNat && c.toNat ≤ 0x200a) ||
  c.toNat = 0x2028 || c.toNat = 0x2029 || c.toNat = 0x202f ||
  c.toNat = 0x205f || c.toNat = 0x3000

/-- Python's guard `not text.strip()`: true exactly when the string trims to
the empty string, i.e. every character is whitespace. -/
def stripped_empty (s : String) : Bool :=
  s.data.all isPythonSpace

/-- Python's `<` on strings: lexicographic comparison of the code-point
sequences (a proper prefix is smaller). -/
def lexLt : List Char → List Char → Bool
  | [], [] => false
  | [], _ :: _ => true
  | _ :: _, [] => false
  | a :: as, b :: bs => if a < b then true else if b < a then false
                        else lexLt as bs

/-- Python's comparison `x.timestamp < y.timestamp` of two entries. -/
def tsLt (x y : Entry) : Bool :=
  lexLt x.timestamp.data y.timestamp.data

/-- Insert an entry into a list that is already sorted by `timestamp`
descending, keeping the insertee in front of any entry whose timestamp is
not larger (the placement a stable descending sort gives an element that
precedes the rest in the original order). -/
def insertDesc (x : Entry) : List Entry → List Entry
  | [] => [x]
  | y :: ys => if tsLt x y then y :: insertDesc x ys
               else x :: y :: ys

/-- Model of `entries.sort(key=lambda x: x['timestamp'], reverse=True)`: a
stable sort by the timestamp string, newest (largest) first. -/
def sortDesc : List Entry → List Entry
  | [] => []
  | x :: xs => insertDesc x (sortDesc xs)

/-- Model of `load_changelog()`: returns `[]` when the file is missing or raises
`json.JSONDecodeError`; sorts and returns a well-formed entry list; lets
`AttributeError` propagate when the parsed JSON is not a list. -/
def load_changelog : Doc → Except PyError (List Entry)
  | .missing => .ok []
  | .unparsable => .ok []
  | .nonList => .error .attributeError
  | .entryList es => .ok (sortDesc es)

/-- Model of `save_changelog(entries)`: the backing document now holds exactly
`entries` (whole-document replace via `json.dump`). -/
def save_changelog (entries : List Entry) : Doc :=
  Doc.entryList entries

/-- Model of `add_entry(operation, text)`. The clock reading
`datetime.datetime.now().isoformat()` is passed in as `now`. The result is
the returned boolean paired with the state of the backing document after the
call. -/
def add_entry (operation text now : String) (doc : Doc) :
    Except PyError (Bool × Doc) :=
  if stripped_empty text then .ok (false, doc)
  else
    match load_changelog doc with
    | .error err => .error err
    | .ok entries =>
      .ok (true, save_changelog (entries ++ [⟨now, operation, text⟩]))

/-- The `for entry in entries: if entry['timestamp'] == timestamp: ...
break` loop of `edit_entry`: replace `operation` and `text` of the first
entry whose timestamp matches, report whether one was found. -/
def replaceFirst (timestamp new_operation new_text : String) :
    List Entry → Bool × List Entry
  | [] => (false, [])
  | e :: rest =>
    if e.timestamp = timestamp then
      (true, { e with operation := new_operation, text := new_text } :: rest)
    else
      let r := replaceFirst timestamp new_operation new_text rest
      (r.1, e :: r.2)

/-- Model of `edit_entry(timestamp, new_operation, new_text)`: validates the text,
loads, updates the first match in place and saves; when no entry matches it
shows an error box, returns `False` and writes nothing. -/
def edit_entry (timestamp new_operation new_text : String) (doc : Doc) :
    Except PyError (Bool × Doc) :=
  if stripped_empty new_text then .ok (false, doc)
  else
    match load_changelog doc with
    | .error err => .error err
    | .ok entries =>
      let r := replaceFirst timestamp new_operation new_text entries
      if r.1 then .ok (true, save_changelog r.2)
      else .ok (false, doc)

/-- Model of `delete_entry(timestamp)`: loads, filters out every matching entry, and
saves only when the filtered list is shorter; otherwise shows an error box,
returns `False` and writes nothing. -/
def delete_entry (timestamp : String) (doc : Doc) :
    Except PyError (Bool × Doc) :=
  match load_changelog doc with
  | .error err => .error err
  | .ok entries =>
    let entries_to_keep :=
      entries.filter (fun e => !(e.timestamp == timestamp))
    if entries.length = entries_to_keep.length then .ok (false, doc)
    else .ok (true, save_changelog entries_to_keep)

/-- A naive `datetime.datetime` value (no timezone — `datetime.now()`
produces naive datetimes). -/
structure DateTime where
  year : Nat
  month : Nat
  day : Nat
  hour : Nat
  minute : Nat
  second : Nat
  microsecond : Nat
deriving Repr, DecidableEq

/-- Number of days in a month, with the Gregorian leap-year rule — the
validation `datetime.datetime` itself performs on its `day` field. -/
def daysInMonth (year month : Nat) : Nat :=
  if month = 2 then
    if year % 4 = 0 && (year % 100 ≠ 0 || year % 400 = 0) then 29 else 28
  else if month = 4 || month = 6 || month = 9 || month = 11 then 30
  else 31

/-- The invariant `datetime.datetime` enforces on its fields (Python's
`MINYEAR = 1`, `MAXYEAR = 9999`); every value `datetime.now()` returns
satisfies it. -/
def DateTime.validB (dt : DateTime) : Bool :=
  1 ≤ dt.year && dt.year ≤ 9999 &&
  1 ≤ dt.month && dt.month ≤ 12 &&
  1 ≤ dt.day && dt.day ≤ daysInMonth dt.year dt.month &&
  dt.hour ≤ 23 && dt.minute ≤ 59 && dt.second ≤ 59 &&
  dt.microsecond ≤ 999999

/-- Two zero-padded decimal digits (`%02d`) of a number below 100. -/
def twoDigits (n : Nat) : List Char :=
  [Nat.digitChar (n / 10), Nat.digitChar (n % 10)]

/-- Four zero-padded decimal digits (`%04d`) of a number below 10000. -/
def fourDigits (n : Nat) : List Char :=
  [Nat.digitChar (n / 1000), Nat.digitChar (n / 100 % 10),
   Nat.digitChar (n / 10 % 10), Nat.digitChar (n % 10)]

/-- Six zero-padded decimal digits (`%06d`) of a number below 1000000. -/
def sixDigits (n : Nat) : List Char :=
  [Nat.digitChar (n / 100000), Nat.digitChar (n / 10000 % 10),
   Nat.digitChar (n / 1000 % 10), Nat.digitChar (n / 100 % 10),
   Nat.digitChar (n / 10 % 10), Nat.digitChar (n % 10)]

/-- Model of `datetime.isoformat()`, character by character:
`YYYY-MM-DDTHH:MM:SS` followed by `.ffffff` unless the microsecond field is
zero. -/
def isoformatChars (dt : DateTime) : List Char :=
  fourDigits dt.year ++ '-' :: twoDigits dt.month ++ '-' :: twoDigits dt.day
    ++ 'T' :: twoDigits dt.hour ++ ':' :: twoDigits dt.minute
    ++ ':' :: twoDigits dt.second
    ++ (if dt.microsecond = 0 then [] else '.' :: sixDigits dt.microsecond)

/-- Model of `datetime.datetime.now().isoformat()` as a string, given the
clock reading `dt`. -/
def isoformat (dt : DateTime) : String :=
  String.mk (isoformatChars dt)

/-- Decimal value of an ASCII digit character, `none` otherwise. -/
def digitVal (c : Char) : Option Nat :=
  if c.isDigit then some (c.toNat - 48) else none

/-- Parse two digit characters as a two-digit decimal number. -/
def parse2 (c1 c2 : Char) : Option Nat := do
  let d1 ← digitVal c1
  let d2 ← digitVal c2
  some (10 * d1 + d2)

/-- Parse four digit characters as a four-digit decimal number. -/
def parse4 (c1 c2 c3 c4 : Char) : Option Nat := do
  let d1 ← digitVal c1
  let d2 ← digitVal c2
  let d3 ← digitVal c3
  let d4 ← digitVal c4
  some (1000 * d1 + 100 * d2 + 10 * d3 + d4)

/-- Parse six digit characters as a six-digit decimal number. -/
def parse6 (c1 c2 c3 c4 c5 c6 : Char) : Option Nat := do
  let hi ← parse4 c1 c2 c3 c4
  let lo ← parse2 c5 c6
  some (100 * hi + lo)

/-- The time part accepted by `datetime.fromisoformat` (Python 3.7–3.10):
`HH`, `HH:MM`, `HH:MM:SS`, `HH:MM:SS.fff` or `HH:MM:SS.ffffff` (this
embedding leaves out the optional UTC-offset suffix, which the stored
timestamps never carry). Returns `(hour, minute, second, microsecond)`. -/
def parseClock : List Char → Option (Nat × Nat × Nat × Nat)
  | [h1, h2] => do
    let h ← parse2 h1 h2
    some (h, 0, 0, 0)
  | [h1, h2, c, n1, n2] => do
    let h ← parse2 h1 h2
    let n ← parse2 n1 n2
    if c = ':' then some (h, n, 0, 0) else none
  | [h1, h2, c, n1, n2, c2, s1, s2] => do
    let h ← parse2 h1 h2
    let n ← parse2 n1 n2
    let s ← parse2 s1 s2
    if c = ':' ∧ c2 = ':' then some (h, n, s, 0) else none
  | [h1, h2, c, n1, n2, c2, s1, s2, p, f1, f2, f3] => do
    let h ← parse2 h1 h2
    let n ← parse2 n1 n2
    let s ← parse2 s1 s2
    let fhi ← digitVal f1
    let fmid ← digitVal f2
    let flo ← digitVal f3
    if c = ':' ∧ c2 = ':' ∧ p = '.' then
      some (h, n, s, (100 * fhi + 10 * fmid + flo) * 1000)
    else none
  | [h1, h2, c, n1, n2, c2, s1, s2, p, f1, f2, f3, f4, f5, f6] => do
    let h ← parse2 h1 h2
    let n ← parse2 n1 n2
    let s ← parse2 s1 s2
    let f ← parse6 f1 f2 f3 f4 f5 f6
    if c = ':' ∧ c2 = ':' ∧ p = '.' then some (h, n, s, f) else none
  | _ => none

/-- After the `YYYY-MM-DD` prefix the string either ends (midnight) or has a
one-character separator (any character, as in CPython < 3.11) followed by a
clock part. -/
def parseTimePart : List Char → Option (Nat × Nat × Nat × Nat)
  | [] => some (0, 0, 0, 0)
  | _ :: rest => parseClock rest

/-- Model of `datetime.datetime.fromisoformat` on the characters of the
argument:
parse `YYYY-MM-DD`, an optional separator plus clock part, then validate the
fields exactly as the `datetime` constructor does; any failure is
`ValueError` (`none`). -/
def fromisoChars : List Char → Option DateTime
  | y1 :: y2 :: y3 :: y4 :: a :: m1 :: m2 :: b :: d1 :: d2 :: rest => do
    let y ← parse4 y1 y2 y3 y4
    let mo ← parse2 m1 m2
    let d ← parse2 d1 d2
    let t ← parseTimePart rest
    let dt : DateTime := ⟨y, mo, d, t.1, t.2.1, t.2.2.1, t.2.2.2⟩
    if a = '-' ∧ b = '-' ∧ dt.validB then some dt else none
  | _ => none

/-- Model of `datetime.datetime.fromisoformat(s)`; `none` stands for the
raised `ValueError`. -/
def fromisoformat (s : String) : Option DateTime :=
  fromisoChars s.data

/-- Model of `timestamp.strftime('%Y-%m-%d %H:%M:%S')`. -/
def strftimeChars (dt : DateTime) : List Char :=
  fourDigits dt.year ++ '-' :: twoDigits dt.month ++ '-' :: twoDigits dt.day
    ++ ' ' :: twoDigits dt.hour ++ ':' :: twoDigits dt.minute
    ++ ':' :: twoDigits dt.second

/-- The replacement `html.escape` (with its default `quote=True`) makes for
one character. The sequential `str.replace` calls in `html.escape` are
equivalent to this character-wise map because `&` is replaced first and no
inserted entity contains a character replaced later. -/
def escapeChar (c : Char) : List Char :=
  if c = '&' then "&amp;".data
  else if c = '<' then "&lt;".data
  else if c = '>' then "&gt;".data
  else if c = '"' then "&quot;".data
  else if c = '\'' then "&#x27;".data
  else [c]

/-- Character-list version of `html.escape`. -/
def escapeList : List Char → List Char
  | [] => []
  | c :: cs => escapeChar c ++ escapeList cs

/-- Model of `html.escape(s)` with the default `quote=True`. -/
def html_escape (s : String) : String :=
  String.mk (escapeList s.data)

/-- Model of `str.lower()`, character by character (the stored operation tags are
ASCII, where Python's and Lean's per-character lowercasing agree). -/
def pyLower (s : String) : String :=
  String.mk (s.data.map Char.toLower)

/-- Tests whether `needle` is a prefix of `hay` (character lists). -/
def isPrefOf : List Char → List Char → Bool
  | [], _ => true
  | _ :: _, [] => false
  | a :: as, b :: bs => a = b && isPrefOf as bs

/-- Tests Python's `needle in hay`: whether `needle` occurs as a contiguous
substring of `hay`. -/
def containsSub (needle : List Char) : List Char → Bool
  | [] => isPrefOf needle []
  | h :: t => isPrefOf needle (h :: t) || containsSub needle t

/-- The outcome of `generate_html_file` when no exception escapes it. A
destination file is written exactly in the `written` case. -/
inductive RenderOutcome where
  /-- The store was empty: the "Changelog is empty" box is shown and the
  function returns before any file dialog. -/
  | noData
  /-- The save dialog returned an empty path: the function returns without
  writing. -/
  | cancelled
  /-- The report `content` was written to `path`. -/
  | written (path content : String)
  /-- Opening or writing `path` raised; the error box is shown and nothing
  (complete) is written. -/
  | writeFailed (path : String)
deriving Repr, DecidableEq

/-- The block the loop body of `generate_html_file` produces for one entry:
`operation.lower()` as the CSS class, the operation verbatim as the tag
label, `html.escape` of the text, and the `strftime`-formatted parse of the
timestamp. `datetime.fromisoformat` raises `ValueError` on a timestamp it
cannot parse. -/
def entry_block (e : Entry) : Except PyError String :=
  match fromisoformat e.timestamp with
  | none => .error .valueError
  | some ts =>
    .ok ("\n        <div class=\"entry\">\n            <span class=\"tag "
      ++ pyLower e.operation ++ "\">" ++ e.operation
      ++ "</span>\n            <span class=\"text\">" ++ html_escape e.text
      ++ "</span>\n            <span class=\"date\">"
      ++ String.mk (strftimeChars ts)
      ++ "</span>\n        </div>\n        ")

/-- The `for entry in entries:` loop accumulating `html_content`; the first
entry whose timestamp fails to parse aborts the whole function with the
raised `ValueError`. -/
def build_html_content : List Entry → Except PyError String
  | [] => .ok ""
  | e :: rest =>
    match entry_block e with
    | .error err => .error err
    | .ok block =>
      match build_html_content rest with
      | .error err => .error err
      | .ok tail => .ok (block ++ tail)

/-- Everything of the `html_template` f-string before `{html_content}`
(with the doubled braces of the f-string rendered as literal braces). -/
def templatePrefix : String :=
  "\n<!DOCTYPE html><html lang=\"en\"><head><meta charset=\"UTF-8\"><meta name=\"viewport\" content=\"width=device-width, initial-scale=1.0\"><title>Changelog</title>\n<style>body\x7bfont-family:-apple-system,BlinkMacSystemFont,\"Segoe UI\",Roboto,Helvetica,Arial,sans-serif;line-height:1.6;background-color:#f4f7f9;color:#333;margin:0;padding:2em;\x7d.container\x7bmax-width:800px;margin:0 auto;background-color:#ffffff;padding:2em;border-radius:8px;box-shadow:0 4px 12px rgba(0,0,0,0.08);\x7dh1\x7bcolor:#1a253c;border-bottom:2px solid #eef2f5;padding-bottom:0.5em;margin-top:0;\x7d.entry\x7bpadding:1em 0;border-bottom:1px solid #eef2f5;display:flex;align-items:flex-start;flex-wrap:wrap;\x7d.entry:last-child\x7bborder-bottom:none;\x7d.tag\x7bfont-weight:600;padding:0.2em 0.6em;border-radius:12px;color:#fff;font-size:0.85em;margin-right:1em;flex-shrink:0;\x7d.tag.created\x7bbackground-color:#28a745;\x7d.tag.edited\x7bbackground-color:#007bff;\x7d.tag.deleted\x7bbackground-color:#dc3545;\x7d.text\x7bflex-grow:1;word-break:break-word;\x7d.date\x7bfont-size:0.8em;color:#888;margin-left:1.5em;flex-shrink:0;align-self:center;\x7d@media (max-width:600px)\x7b.entry\x7bflex-direction:column;align-items:flex-start;\x7d.date\x7bmargin-left:0;margin-top:0.5em;\x7d\x7d\n</style></head><body><div class=\"container\"><h1>Project Changelog</h1>"

/-- Everything of the `html_template` f-string after `{html_content}`. -/
def templateSuffix : String :=
  "</div></body></html>"

/-- Model of `generate_html_file()`. The save-dialog result is `dialogPath` (`none`
for a cancelled dialog, Python's falsy empty path) and `writeOk` says
whether opening and writing the chosen path succeeds. The per-entry blocks
are built *before* the dialog, so a timestamp parse error escapes before any
file interaction. -/
def generate_html_file (doc : Doc) (dialogPath : Option String)
    (writeOk : Bool) : Except PyError RenderOutcome :=
  match load_changelog doc with
  | .error err => .error err
  | .ok entries =>
    if entries.isEmpty then .ok .noData
    else
      match build_html_content entries with
      | .error err => .error err
      | .ok html_content =>
        match dialogPath with
        | none => .ok .cancelled
        | some filepath =>
          let html_template := templatePrefix ++ html_content ++ templateSuffix
          if writeOk then .ok (.written filepath html_template)
          else .ok (.writeFailed filepath)

lemma lexLt_irrefl (l : List Char) : lexLt l l = false := by
  induction l with
  | nil => rfl
  | cons a as ih => simp [lexLt, ih]

lemma lexLt_cons_true {a b : Char} {as bs : List Char} :
    lexLt (a :: as) (b :: bs) = true ↔ a < b ∨ (a = b ∧ lexLt as bs = true) := by
  simp only [lexLt]
  rcases lt_trichotomy a b with h | h | h
  · simp [h]
  · subst h; simp [lt_irrefl]
  · simp [h, lt_asymm h, (ne_of_lt h).symm]

lemma lexLt_cons_false {a b : Char} {as bs : List Char} :
    lexLt (a :: as) (b :: bs) = false ↔ b < a ∨ (a = b ∧ lexLt as bs = false) := by
  simp only [lexLt]
  rcases lt_trichotomy a b with h | h | h
  · simp [h, lt_asymm h, ne_of_lt h]
  · subst h; simp [lt_irrefl]
  · simp [h, lt_asymm h]

lemma lexLt_asymm : ∀ {a b : List Char}, lexLt a b = true → lexLt b a = false
  | [], [], h => by simp [lexLt] at h
  | [], _ :: _, _ => rfl
  | _ :: _, [], h => by simp [lexLt] at h
  | a :: as, b :: bs, h => by
    rcases lexLt_cons_true.mp h with h' | ⟨rfl, h'⟩
    · exact lexLt_cons_false.mpr (Or.inl h')
    · exact lexLt_cons_false.mpr (Or.inr ⟨rfl, lexLt_asymm h'⟩)

lemma lexLt_nil_right : ∀ a : List Char, lexLt a [] = false
  | [] => rfl
  | _ :: _ => rfl

lemma lexLt_false_trans : ∀ {a b c : List Char},
    lexLt a b = false → lexLt b c = false → lexLt a c = false
  | a, [], [], hab, _ => hab
  | [], _ :: _, _, hab, _ => by simp [lexLt] at hab
  | a, _, [], _, _ => lexLt_nil_right a
  | a :: as, [], c :: cs, _, hbc => by simp [lexLt] at hbc
  | a :: as, b :: bs, c :: cs, hab, hbc => by
    rcases lexLt_cons_false.mp hab with h1 | ⟨rfl, h1⟩ <;>
      rcases lexLt_cons_false.mp hbc with h2 | ⟨rfl, h2⟩
    · exact lexLt_cons_false.mpr (Or.inl (lt_trans h2 h1))
    · exact lexLt_cons_false.mpr (Or.inl h1)
    · exact lexLt_cons_false.mpr (Or.inl h2)
    · exact lexLt_cons_false.mpr (Or.inr ⟨rfl, lexLt_false_trans h1 h2⟩)

lemma mem_insertDesc {a x : Entry} : ∀ {l : List Entry},
    a ∈ insertDesc x l ↔ a = x ∨ a ∈ l
  | [] => by simp [insertDesc]
  | y :: ys => by
    simp only [insertDesc]
    split
    · simp only [List.mem_cons, mem_insertDesc (l := ys)]
      tauto
    · simp only [List.mem_cons]

lemma insertDesc_perm (x : Entry) : ∀ l : List Entry,
    (insertDesc x l).Perm (x :: l)
  | [] => List.Perm.refl _
  | y :: ys => by
    simp only [insertDesc]
    split
    · exact ((insertDesc_perm x ys).cons y).trans (List.Perm.swap x y ys)
    · exact List.Perm.refl _

lemma sortDesc_perm : ∀ l : List Entry, (sortDesc l).Perm l
  | [] => List.Perm.refl _
  | x :: xs => (insertDesc_perm x (sortDesc xs)).trans ((sortDesc_perm xs).cons x)

lemma mem_sortDesc {a : Entry} {l : List Entry} : a ∈ sortDesc l ↔ a ∈ l :=
  (sortDesc_perm l).mem_iff

lemma length_sortDesc (l : List Entry) : (sortDesc l).length = l.length :=
  (sortDesc_perm l).length_eq

lemma sorted_insertDesc {x : Entry} : ∀ {l : List Entry},
    l.Sorted (fun a b => tsLt a b = false) →
    (insertDesc x l).Sorted (fun a b => tsLt a b = false)
  | [], _ => by simp [insertDesc]
  | y :: ys, h => by
    rw [List.sorted_cons] at h
    obtain ⟨hy, hys⟩ := h
    simp only [insertDesc]
    split
    · rename_i hxy
      rw [List.sorted_cons]
      refine ⟨?_, sorted_insertDesc hys⟩
      intro b hb
      rcases mem_insertDesc.mp hb with rfl | hb
      · exact lexLt_asymm hxy
      · exact hy b hb
    · rename_i hxy
      rw [Bool.not_eq_true] at hxy
      rw [List.sorted_cons]
      refine ⟨?_, List.sorted_cons.mpr ⟨hy, hys⟩⟩
      intro b hb
      rcases List.mem_cons.mp hb with rfl | hb
      · exact hxy
      · exact lexLt_false_trans hxy (hy b hb)

lemma sorted_sortDesc : ∀ l : List Entry,
    (sortDesc l).Sorted (fun a b => tsLt a b = false)
  | [] => List.sorted_nil
  | _ :: xs => sorted_insertDesc (sorted_sortDesc xs)

/-- Claim C1, counterexample: the claim that Load never crashes on a corrupt
file is false. On a backing file whose contents are valid JSON but not a
list (for example `\x7b\x7d`), `json.load` succeeds and `entries.sort(...)`
raises an uncaught `AttributeError`: `load_changelog` fails instead of
returning the empty sequence. -/
theorem claim1_counterexample :
    load_changelog Doc.nonList = .error PyError.attributeError ∧
    load_changelog Doc.nonList ≠ .ok [] :=
  ⟨rfl, fun h => Except.noConfusion h⟩

/-- Claim C1, amended: if the backing document does not exist, Load returns
the empty sequence (not an error), and if the document exists but fails JSON
parsing, Load also returns the empty sequence; but if the document parses as
JSON that is not a list, Load raises an uncaught `AttributeError` — so Load
can still crash on some corrupt files. -/
theorem claim1_load_fail_soft :
    load_changelog Doc.missing = .ok [] ∧
    load_changelog Doc.unparsable = .ok [] ∧
    load_changelog Doc.nonList = .error PyError.attributeError :=
  ⟨rfl, rfl, rfl⟩

/-- Claim C4: for every operation tag and every text whose trimmed form is
empty, both Append and Update fail the validation check, return failure, and
leave the persisted store unchanged — no write occurs, whatever state the
backing document is in. -/
theorem claim4_validation (operation timestamp text now : String) (doc : Doc)
    (h : stripped_empty text = true) :
    add_entry operation text now doc = .ok (false, doc) ∧
    edit_entry timestamp operation text doc = .ok (false, doc) := by
  constructor <;> simp [add_entry, edit_entry, h]

/-- Witness for C4: appending or updating with the all-blank text "   "
fails and leaves a one-entry store untouched. -/
theorem claim4_witness :
    stripped_empty "   " = true ∧ stripped_empty "" = true ∧
    add_entry "Created" "   " "2024-01-02T03:04:05"
      (Doc.entryList [⟨"t1", "Created", "x"⟩]) =
      .ok (false, Doc.entryList [⟨"t1", "Created", "x"⟩]) ∧
    edit_entry "t1" "Edited" "   "
      (Doc.entryList [⟨"t1", "Created", "x"⟩]) =
      .ok (false, Doc.entryList [⟨"t1", "Created", "x"⟩]) :=
  ⟨by decide, by decide,
   (claim4_validation "Created" "t1" "   " "2024-01-02T03:04:05" _ (by decide)).1,
   (claim4_validation "Edited" "t1" "   " "2024-01-02T03:04:05" _ (by decide)).2⟩

/-- Claim C5: every successful Load result is sorted by timestamp
descending; in particular, whenever the entry at position `i` has a strictly
larger timestamp than the entry at position `j`, position `i` comes first
(`i < j`), so the entry with the larger of two distinct timestamps always
appears before the other. -/
theorem claim5_load_sorted (doc : Doc) (l : List Entry)
    (h : load_changelog doc = .ok l) :
    l.Sorted (fun a b => tsLt a b = false) ∧
    ∀ i j (hi : i < l.length) (hj : j < l.length),
      tsLt (l.get ⟨j, hj⟩) (l.get ⟨i, hi⟩) = true → i < j := by
  have hs : l.Sorted (fun a b => tsLt a b = false) := by
    cases doc with
    | missing => cases h; exact List.sorted_nil
    | unparsable => cases h; exact List.sorted_nil
    | nonList => cases h
    | entryList es => cases h; exact sorted_sortDesc es
  refine ⟨hs, fun i j hi hj hgt => ?_⟩
  by_contra hij
  push_neg at hij
  rcases Nat.lt_or_ge j i with hji | hji
  · have := hs.rel_get_of_lt (a := ⟨j, hj⟩) (b := ⟨i, hi⟩) hji
    rw [this] at hgt
    cases hgt
  · have hij' : i = j := Nat.le_antisymm hji hij
    subst hij'
    have hrefl : tsLt (l.get ⟨i, hi⟩) (l.get ⟨i, hi⟩) = false := lexLt_irrefl _
    rw [hrefl] at hgt
    cases hgt

/-- Witness for C5: loading two entries stored oldest-first returns them
newest-first, sorted descending. -/
theorem claim5_witness :
    load_changelog (Doc.entryList [⟨"2024-01-01T00:00:00", "Created", "old"⟩,
        ⟨"2024-06-01T00:00:00", "Edited", "new"⟩]) =
      .ok [⟨"2024-06-01T00:00:00", "Edited", "new"⟩,
        ⟨"2024-01-01T00:00:00", "Created", "old"⟩] ∧
    ([⟨"2024-06-01T00:00:00", "Edited", "new"⟩,
      ⟨"2024-01-01T00:00:00", "Created", "old"⟩] : List Entry).Sorted
        (fun a b => tsLt a b = false) :=
  ⟨rfl, (claim5_load_sorted
    (Doc.entryList [⟨"2024-01-01T00:00:00", "Created", "old"⟩,
      ⟨"2024-06-01T00:00:00", "Edited", "new"⟩])
    [⟨"2024-06-01T00:00:00", "Edited", "new"⟩,
      ⟨"2024-01-01T00:00:00", "Created", "old"⟩] rfl).1⟩

/-- Claim C8: when the store loads as the empty sequence, the renderer
signals the nothing-to-export condition (the "Changelog is empty" box) and
returns before the file dialog, so no destination file is written. -/
theorem claim8_empty_render (doc : Doc) (dialogPath : Option String)
    (writeOk : Bool) (h : load_changelog doc = .ok []) :
    generate_html_file doc dialogPath writeOk = .ok .noData ∧
    ∀ p c, generate_html_file doc dialogPath writeOk ≠
      .ok (RenderOutcome.written p c) := by
  have hg : generate_html_file doc dialogPath writeOk = .ok .noData := by
    simp [generate_html_file, h]
  exact ⟨hg, fun p c hc => by rw [hg] at hc; cases hc⟩

/-- Witness for C8: rendering an empty store yields the no-data outcome. -/
theorem claim8_witness :
    load_changelog (Doc.entryList []) = .ok [] ∧
    generate_html_file (Doc.entryList []) (some "changelog.html") true =
      .ok RenderOutcome.noData :=
  ⟨rfl, (claim8_empty_render (Doc.entryList []) (some "changelog.html") true
    rfl).1⟩

lemma replaceFirst_not_found {T op txt : String} : ∀ {l : List Entry},
    (∀ e ∈ l, e.timestamp ≠ T) → replaceFirst T op txt l = (false, l)
  | [], _ => rfl
  | e :: rest, h => by
    simp only [replaceFirst]
    rw [if_neg (h e (List.mem_cons_self e rest))]
    rw [replaceFirst_not_found (fun x hx => h x (List.mem_cons_of_mem e hx))]

lemma replaceFirst_found {T op txt : String} {e : Entry} (he : e.timestamp = T) :
    ∀ (l1 l2 : List Entry), (∀ x ∈ l1, x.timestamp ≠ T) →
    replaceFirst T op txt (l1 ++ e :: l2) =
      (true, l1 ++ { e with operation := op, text := txt } :: l2)
  | [], l2, _ => by simp [replaceFirst, he]
  | x :: l1, l2, h => by
    have ih := @replaceFirst_found T op txt e he l1 l2
      (fun y hy => h y (List.mem_cons_of_mem x hy))
    simp only [List.cons_append, replaceFirst,
      if_neg (h x (List.mem_cons_self x l1)), List.append_eq, ih]

/-- Claim C2: for every store and timestamp key, Update with non-empty text
scans for the first entry whose timestamp matches exactly; if none matches
it returns failure and performs no write (the store is unchanged); if the
first match is `e` (no earlier entry matches), only that entry's operation
and text are replaced — its timestamp and every other entry are unchanged —
and the result is persisted. -/
theorem claim2_update_semantics (T op txt : String) (es : List Entry)
    (hv : stripped_empty txt = false) :
    ((∀ e ∈ es, e.timestamp ≠ T) →
      edit_entry T op txt (Doc.entryList es) = .ok (false, Doc.entryList es)) ∧
    (∀ l1 e l2, sortDesc es = l1 ++ e :: l2 →
      (∀ x ∈ l1, x.timestamp ≠ T) → e.timestamp = T →
      edit_entry T op txt (Doc.entryList es) =
        .ok (true, Doc.entryList (l1 ++ (⟨T, op, txt⟩ : Entry) :: l2))) := by
  constructor
  · intro h
    have h' : ∀ e ∈ sortDesc es, e.timestamp ≠ T :=
      fun e he => h e (mem_sortDesc.mp he)
    simp [edit_entry, hv, load_changelog, replaceFirst_not_found h']
  · intro l1 e l2 hsplit h1 he
    obtain ⟨et, eo, etx⟩ := e
    have he' : et = T := he
    subst he'
    have hr : replaceFirst et op txt (sortDesc es) =
        (true, l1 ++ (⟨et, op, txt⟩ : Entry) :: l2) := by
      rw [hsplit]
      exact @replaceFirst_found et op txt ⟨et, eo, etx⟩ rfl l1 l2 h1
    simp [edit_entry, hv, load_changelog, hr, save_changelog]

/-- Witness for C2: editing an existing timestamp rewrites exactly that
entry; editing a nonexistent timestamp returns failure and leaves the store
unchanged. -/
theorem claim2_witness :
    stripped_empty "new text" = false ∧
    edit_entry "2024-01-01T00:00:00" "Edited" "new text"
      (Doc.entryList [⟨"2024-01-01T00:00:00", "Created", "old"⟩,
        ⟨"2024-06-01T00:00:00", "Created", "mid"⟩]) =
      .ok (true, Doc.entryList [⟨"2024-06-01T00:00:00", "Created", "mid"⟩,
        ⟨"2024-01-01T00:00:00", "Edited", "new text"⟩]) ∧
    edit_entry "nonexistent" "Edited" "new text"
      (Doc.entryList [⟨"2024-01-01T00:00:00", "Created", "old"⟩,
        ⟨"2024-06-01T00:00:00", "Created", "mid"⟩]) =
      .ok (false, Doc.entryList [⟨"2024-01-01T00:00:00", "Created", "old"⟩,
        ⟨"2024-06-01T00:00:00", "Created", "mid"⟩]) :=
  ⟨by decide,
   (claim2_update_semantics "2024-01-01T00:00:00" "Edited" "new text"
      [⟨"2024-01-01T00:00:00", "Created", "old"⟩,
        ⟨"2024-06-01T00:00:00", "Created", "mid"⟩] (by decide)).2
     [⟨"2024-06-01T00:00:00", "Created", "mid"⟩]
     ⟨"2024-01-01T00:00:00", "Created", "old"⟩ [] rfl (by decide) rfl,
   (claim2_update_semantics "nonexistent" "Edited" "new text"
      [⟨"2024-01-01T00:00:00", "Created", "old"⟩,
        ⟨"2024-06-01T00:00:00", "Created", "mid"⟩] (by decide)).1 (by decide)⟩

/-- Claim C3: Delete builds a new set excluding every entry whose timestamp
matches and persists the filtered set exactly when at least one entry was
removed (its length then being strictly smaller); when no entry matches it
returns failure and performs no write, leaving the store unchanged. The
filtered set contains no matching entry and keeps every non-matching
entry. -/
theorem claim3_delete_semantics (T : String) (es : List Entry) :
    ((∀ e ∈ es, e.timestamp ≠ T) →
      delete_entry T (Doc.entryList es) = .ok (false, Doc.entryList es)) ∧
    ((∃ e ∈ es, e.timestamp = T) →
      delete_entry T (Doc.entryList es) =
        .ok (true, Doc.entryList
          ((sortDesc es).filter (fun e => !(e.timestamp == T)))) ∧
      ((sortDesc es).filter (fun e => !(e.timestamp == T))).length < es.length ∧
      (∀ e ∈ (sortDesc es).filter (fun e => !(e.timestamp == T)),
        e.timestamp ≠ T) ∧
      (∀ e ∈ es, e.timestamp ≠ T →
        e ∈ (sortDesc es).filter (fun e => !(e.timestamp == T)))) := by
  constructor
  · intro h
    have hf : (sortDesc es).filter (fun e => !(e.timestamp == T)) = sortDesc es := by
      apply List.filter_eq_self.mpr
      intro e he
      simp [beq_eq_false_iff_ne.mpr (h e (mem_sortDesc.mp he))]
    simp [delete_entry, load_changelog, hf]
  · intro h
    obtain ⟨e, he, heT⟩ := h
    have hlt : ((sortDesc es).filter (fun e => !(e.timestamp == T))).length <
        (sortDesc es).length := by
      apply List.length_filter_lt_length_iff_exists.mpr
      exact ⟨e, mem_sortDesc.mpr he, by simp [heT]⟩
    have hne : (sortDesc es).length ≠
        ((sortDesc es).filter (fun e => !(e.timestamp == T))).length :=
      Nat.ne_of_gt hlt
    refine ⟨?_, ?_, ?_, ?_⟩
    · simp [delete_entry, load_changelog, hne, save_changelog]
    · rw [← length_sortDesc es]; exact hlt
    · intro x hx
      have := (List.mem_filter.mp hx).2
      simpa [beq_eq_false_iff_ne] using this
    · intro x hx hxT
      exact List.mem_filter.mpr ⟨mem_sortDesc.mpr hx, by simp [beq_eq_false_iff_ne.mpr hxT]⟩

/-- Witness for C3: deleting the middle of three entries keeps exactly the
other two; deleting a nonexistent timestamp returns failure and leaves all
three unchanged. -/
theorem claim3_witness :
    (∃ e ∈ ([⟨"2024-01-01T00:00:00", "Created", "a"⟩,
      ⟨"2024-02-01T00:00:00", "Edited", "b"⟩,
      ⟨"2024-03-01T00:00:00", "Deleted", "c"⟩] : List Entry),
        e.timestamp = "2024-02-01T00:00:00") ∧
    delete_entry "2024-02-01T00:00:00"
      (Doc.entryList [⟨"2024-01-01T00:00:00", "Created", "a"⟩,
        ⟨"2024-02-01T00:00:00", "Edited", "b"⟩,
        ⟨"2024-03-01T00:00:00", "Deleted", "c"⟩]) =
      .ok (true, Doc.entryList [⟨"2024-03-01T00:00:00", "Deleted", "c"⟩,
        ⟨"2024-01-01T00:00:00", "Created", "a"⟩]) ∧
    delete_entry "nonexistent"
      (Doc.entryList [⟨"2024-01-01T00:00:00", "Created", "a"⟩,
        ⟨"2024-02-01T00:00:00", "Edited", "b"⟩,
        ⟨"2024-03-01T00:00:00", "Deleted", "c"⟩]) =
      .ok (false, Doc.entryList [⟨"2024-01-01T00:00:00", "Created", "a"⟩,
        ⟨"2024-02-01T00:00:00", "Edited", "b"⟩,
        ⟨"2024-03-01T00:00:00", "Deleted", "c"⟩]) :=
  ⟨by decide,
   ((claim3_delete_semantics "2024-02-01T00:00:00"
      [⟨"2024-01-01T00:00:00", "Created", "a"⟩,
        ⟨"2024-02-01T00:00:00", "Edited", "b"⟩,
        ⟨"2024-03-01T00:00:00", "Deleted", "c"⟩]).2 (by decide)).1,
   (claim3_delete_semantics "nonexistent"
      [⟨"2024-01-01T00:00:00", "Created", "a"⟩,
        ⟨"2024-02-01T00:00:00", "Edited", "b"⟩,
        ⟨"2024-03-01T00:00:00", "Deleted", "c"⟩]).1 (by decide)⟩

lemma daysInMonth_le (y m : Nat) : daysInMonth y m ≤ 31 := by
  unfold daysInMonth
  split
  · split <;> omega
  · split <;> omega

lemma digitVal_digitChar {m : Nat} (h : m < 10) :
    digitVal (Nat.digitChar m) = some m := by
  interval_cases m <;> decide

lemma parse2_digits {n : Nat} (h : n < 100) :
    parse2 (Nat.digitChar (n / 10)) (Nat.digitChar (n % 10)) = some n := by
  have h1 : n / 10 < 10 := by omega
  have h2 : n % 10 < 10 := by omega
  simp [parse2, digitVal_digitChar h1, digitVal_digitChar h2]
  omega

lemma parse4_digits {n : Nat} (h : n < 10000) :
    parse4 (Nat.digitChar (n / 1000)) (Nat.digitChar (n / 100 % 10))
      (Nat.digitChar (n / 10 % 10)) (Nat.digitChar (n % 10)) = some n := by
  have h1 : n / 1000 < 10 := by omega
  have h2 : n / 100 % 10 < 10 := by omega
  have h3 : n / 10 % 10 < 10 := by omega
  have h4 : n % 10 < 10 := by omega
  simp [parse4, digitVal_digitChar h1, digitVal_digitChar h2,
    digitVal_digitChar h3, digitVal_digitChar h4]
  omega

lemma parse6_digits {n : Nat} (h : n < 1000000) :
    parse6 (Nat.digitChar (n / 100000)) (Nat.digitChar (n / 10000 % 10))
      (Nat.digitChar (n / 1000 % 10)) (Nat.digitChar (n / 100 % 10))
      (Nat.digitChar (n / 10 % 10)) (Nat.digitChar (n % 10)) = some n := by
  have h1 : n / 100000 < 10 := by omega
  have h2 : n / 10000 % 10 < 10 := by omega
  have h3 : n / 1000 % 10 < 10 := by omega
  have h4 : n / 100 % 10 < 10 := by omega
  have h5 : n / 10 % 10 < 10 := by omega
  have h6 : n % 10 < 10 := by omega
  simp [parse6, parse4, parse2, digitVal_digitChar h1, digitVal_digitChar h2,
    digitVal_digitChar h3, digitVal_digitChar h4, digitVal_digitChar h5,
    digitVal_digitChar h6]
  omega

lemma parseClock_len8 (a b n1 n2 s1 s2 : Char) :
    parseClock [a, b, ':', n1, n2, ':', s1, s2] =
      (parse2 a b).bind (fun h =>
        (parse2 n1 n2).bind (fun n =>
          (parse2 s1 s2).bind (fun s => some (h, n, s, 0)))) := rfl

lemma parseClock_len15 (a b n1 n2 s1 s2 f1 f2 f3 f4 f5 f6 : Char) :
    parseClock [a, b, ':', n1, n2, ':', s1, s2, '.', f1, f2, f3, f4, f5, f6] =
      (parse2 a b).bind (fun h =>
        (parse2 n1 n2).bind (fun n =>
          (parse2 s1 s2).bind (fun s =>
            (parse6 f1 f2 f3 f4 f5 f6).bind (fun f =>
              some (h, n, s, f))))) := rfl

theorem fromisoformat_isoformat {dt : DateTime} (h : dt.validB = true) :
    fromisoformat (isoformat dt) = some dt := by
  obtain ⟨y, mo, d, hh, mi, ss, us⟩ := dt
  simp only [DateTime.validB, Bool.and_eq_true, decide_eq_true_eq, and_assoc] at h
  obtain ⟨hy1, hy2, hm1, hm2, hd1, hd2, hhh, hmi, hss, hus⟩ := h
  have hd100 : d < 100 := by
    have := daysInMonth_le y mo
    omega
  have hvB : DateTime.validB ⟨y, mo, d, hh, mi, ss, us⟩ = true := by
    simp only [DateTime.validB, Bool.and_eq_true, decide_eq_true_eq, and_assoc]
    exact ⟨hy1, hy2, hm1, hm2, hd1, hd2, hhh, hmi, hss, hus⟩
  show fromisoChars (isoformatChars ⟨y, mo, d, hh, mi, ss, us⟩) =
    some ⟨y, mo, d, hh, mi, ss, us⟩
  by_cases h0 : us = 0
  · subst h0
    simp only [isoformatChars, fourDigits, twoDigits, eq_self_iff_true,
      if_true, List.cons_append, List.nil_append, List.append_nil]
    simp only [fromisoChars, parseTimePart, parseClock_len8,
      parse4_digits (by omega : y < 10000),
      parse2_digits (by omega : mo < 100),
      parse2_digits hd100,
      parse2_digits (by omega : hh < 100),
      parse2_digits (by omega : mi < 100),
      parse2_digits (by omega : ss < 100),
      Option.bind_eq_bind, Option.some_bind, Option.bind_some]
    simp [hvB]
  · simp only [isoformatChars, fourDigits, twoDigits, sixDigits, if_neg h0,
      List.cons_append, List.nil_append]
    simp only [fromisoChars, parseTimePart, parseClock_len15,
      parse4_digits (by omega : y < 10000),
      parse2_digits (by omega : mo < 100),
      parse2_digits hd100,
      parse2_digits (by omega : hh < 100),
      parse2_digits (by omega : mi < 100),
      parse2_digits (by omega : ss < 100),
      parse6_digits (by omega : us < 1000000),
      Option.bind_eq_bind, Option.some_bind, Option.bind_some]
    simp [hvB]

/-- Claim C6: for every operation tag and text that is non-empty after
trimming, Append succeeds and persists the previous entries plus a new entry
whose operation and text equal the inputs exactly and whose timestamp is the
ISO-8601 rendering of the clock reading taken during the call; a subsequent
Load contains that entry, and its timestamp parses back with
`fromisoformat` (it is a valid ISO-8601 string). -/
theorem claim6_append_roundtrip (operation text : String) (es : List Entry)
    (dt : DateTime) (hv : stripped_empty text = false)
    (hdt : dt.validB = true) :
    add_entry operation text (isoformat dt) (Doc.entryList es) =
      .ok (true, Doc.entryList
        (sortDesc es ++ [⟨isoformat dt, operation, text⟩])) ∧
    ∃ l, load_changelog (Doc.entryList
        (sortDesc es ++ [⟨isoformat dt, operation, text⟩])) = .ok l ∧
      (⟨isoformat dt, operation, text⟩ : Entry) ∈ l ∧
      fromisoformat (isoformat dt) = some dt := by
  refine ⟨by simp [add_entry, hv, load_changelog, save_changelog], _, rfl,
    ?_, fromisoformat_isoformat hdt⟩
  exact mem_sortDesc.mpr (by simp)

/-- Witness for C6: appending "Initial release" at a concrete clock reading
persists it, a following Load contains it, and its timestamp round-trips
through `fromisoformat`. -/
theorem claim6_witness :
    stripped_empty "Initial release" = false ∧
    (⟨2024, 1, 2, 3, 4, 5, 123456⟩ : DateTime).validB = true ∧
    (add_entry "Created" "Initial release"
        (isoformat ⟨2024, 1, 2, 3, 4, 5, 123456⟩) (Doc.entryList []) =
      .ok (true, Doc.entryList
        (sortDesc [] ++ [⟨isoformat ⟨2024, 1, 2, 3, 4, 5, 123456⟩,
          "Created", "Initial release"⟩])) ∧
    ∃ l, load_changelog (Doc.entryList
        (sortDesc [] ++ [⟨isoformat ⟨2024, 1, 2, 3, 4, 5, 123456⟩,
          "Created", "Initial release"⟩])) = .ok l ∧
      (⟨isoformat ⟨2024, 1, 2, 3, 4, 5, 123456⟩,
        "Created", "Initial release"⟩ : Entry) ∈ l ∧
      fromisoformat (isoformat ⟨2024, 1, 2, 3, 4, 5, 123456⟩) =
        some ⟨2024, 1, 2, 3, 4, 5, 123456⟩) :=
  ⟨by decide, by decide,
   claim6_append_roundtrip "Created" "Initial release" []
     ⟨2024, 1, 2, 3, 4, 5, 123456⟩ (by decide) (by decide)⟩

lemma escapeChar_no_markup (c x : Char) (hx : x ∈ escapeChar c) :
    x ≠ '<' ∧ x ≠ '>' ∧ x ≠ '"' ∧ x ≠ '\'' := by
  unfold escapeChar at hx
  split at hx
  · simp only [List.mem_cons, List.not_mem_nil, or_false] at hx
    rcases hx with rfl | rfl | rfl | rfl | rfl <;> decide
  · split at hx
    · simp only [List.mem_cons, List.not_mem_nil, or_false] at hx
      rcases hx with rfl | rfl | rfl | rfl <;> decide
    · split at hx
      · simp only [List.mem_cons, List.not_mem_nil, or_false] at hx
        rcases hx with rfl | rfl | rfl | rfl <;> decide
      · split at hx
        · simp only [List.mem_cons, List.not_mem_nil, or_false] at hx
          rcases hx with rfl | rfl | rfl | rfl | rfl | rfl <;> decide
        · split at hx
          · simp only [List.mem_cons, List.not_mem_nil, or_false] at hx
            rcases hx with rfl | rfl | rfl | rfl | rfl | rfl <;> decide
          · simp only [List.mem_cons, List.not_mem_nil, or_false] at hx
            subst hx
            rename_i h1 h2 h3 h4 h5
            exact ⟨h2, h3, h4, h5⟩

lemma escapeList_no_markup : ∀ (l : List Char) (x : Char),
    x ∈ escapeList l → x ≠ '<' ∧ x ≠ '>' ∧ x ≠ '"' ∧ x ≠ '\''
  | [], x, hx => by cases hx
  | c :: cs, x, hx => by
    rcases List.mem_append.mp hx with h | h
    · exact escapeChar_no_markup c x h
    · exact escapeList_no_markup cs x h

/-- Claim C7: the escaped entry text can contain none of the
markup-significant characters `<`, `>`, `"`, `'`, so entry text cannot
inject structure into the rendered document; in particular the rendered
block of an entry with text `<script>alert(1)</script>` contains the
escaped form and no literal `<script>` substring. -/
theorem claim7_text_escaped :
    (∀ (s : String) (x : Char), x ∈ (html_escape s).data →
      x ≠ '<' ∧ x ≠ '>' ∧ x ≠ '"' ∧ x ≠ '\'') ∧
    (∃ s, entry_block ⟨"2024-01-02T03:04:05", "Created",
        "<script>alert(1)</script>"⟩ = .ok s ∧
      containsSub "&lt;script&gt;alert(1)&lt;/script&gt;".data s.data = true ∧
      containsSub "<script>".data s.data = false) :=
  ⟨fun s x hx => escapeList_no_markup s.data x hx,
   _, rfl, by decide, by decide⟩

/-- Witness for C7: the character sequence produced by escaping "<" does
contain the letter l of the entity and no markup-significant character. -/
theorem claim7_witness :
    'l' ∈ (html_escape "<").data ∧
    ('l' ≠ '<' ∧ 'l' ≠ '>' ∧ 'l' ≠ '"' ∧ 'l' ≠ '\'') :=
  ⟨by decide, claim7_text_escaped.1 "<" 'l' (by decide)⟩

lemma data_append (a b : String) : (a ++ b).data = a.data ++ b.data := rfl

lemma isPrefOf_append (n b : List Char) : isPrefOf n (n ++ b) = true := by
  induction n with
  | nil => rfl
  | cons a as ih => simp [isPrefOf, ih]

lemma containsSub_of_isPrefOf : ∀ {n l : List Char},
    isPrefOf n l = true → containsSub n l = true
  | n, [], h => by simpa [containsSub] using h
  | n, x :: t, h => by simp [containsSub, h]

lemma containsSub_append_left (n : List Char) : ∀ (a t : List Char),
    containsSub n t = true → containsSub n (a ++ t) = true
  | [], t, h => h
  | x :: a, t, h => by
    simp [containsSub, containsSub_append_left n a t h]

lemma containsSub_mid (a n b : List Char) :
    containsSub n (a ++ (n ++ b)) = true :=
  containsSub_append_left n a _ (containsSub_of_isPrefOf (isPrefOf_append n b))

lemma data_mk (l : List Char) : (String.mk l).data = l := rfl

/-- Claim C9: the renderer inserts the operation string verbatim into the
rendered block — unescaped as the visible tag label and lowercased as the
style class name; an operation string containing markup, such as
`<b onclick=alert(1)>`, therefore appears unescaped in the output. -/
theorem claim9_operation_unescaped :
    (∀ (e : Entry) (dt : DateTime), fromisoformat e.timestamp = some dt →
      ∃ s, entry_block e = .ok s ∧
        containsSub e.operation.data s.data = true ∧
        containsSub (pyLower e.operation).data s.data = true) ∧
    (∃ s, entry_block ⟨"2024-01-02T03:04:05", "<b onclick=alert(1)>", "hi"⟩ =
        .ok s ∧ containsSub "<b onclick=alert(1)>".data s.data = true) := by
  constructor
  · intro e dt h
    have hb : entry_block e = .ok
        ("\n        <div class=\"entry\">\n            <span class=\"tag "
          ++ pyLower e.operation ++ "\">" ++ e.operation
          ++ "</span>\n            <span class=\"text\">" ++ html_escape e.text
          ++ "</span>\n            <span class=\"date\">"
          ++ String.mk (strftimeChars dt)
          ++ "</span>\n        </div>\n        ") := by
      simp [entry_block, h]
    refine ⟨_, hb, ?_, ?_⟩
    · simp only [data_append, data_mk, List.append_assoc]
      apply containsSub_append_left
      apply containsSub_append_left
      apply containsSub_append_left
      exact containsSub_of_isPrefOf (isPrefOf_append _ _)
    · simp only [data_append, data_mk, List.append_assoc]
      apply containsSub_append_left
      exact containsSub_of_isPrefOf (isPrefOf_append _ _)
  · exact ⟨_, rfl, by decide⟩

/-- Witness for C9: the rendered block of a Created entry contains
"Created" verbatim and its lowercase form as well. -/
theorem claim9_witness :
    fromisoformat ("2024-01-02T03:04:05" : String) =
      some ⟨2024, 1, 2, 3, 4, 5, 0⟩ ∧
    ∃ s, entry_block ⟨"2024-01-02T03:04:05", "Created", "hi"⟩ = .ok s ∧
      containsSub ("Created" : String).data s.data = true ∧
      containsSub (pyLower "Created").data s.data = true :=
  ⟨by decide,
   claim9_operation_unescaped.1 ⟨"2024-01-02T03:04:05", "Created", "hi"⟩
     ⟨2024, 1, 2, 3, 4, 5, 0⟩ (by decide)⟩

lemma entry_block_err {e : Entry} (h : fromisoformat e.timestamp = none) :
    entry_block e = .error PyError.valueError := by
  simp [entry_block, h]

lemma build_html_content_err : ∀ {l : List Entry} {e : Entry}, e ∈ l →
    fromisoformat e.timestamp = none →
    build_html_content l = .error PyError.valueError
  | x :: t, e, hmem, h => by
    rcases hx : fromisoformat x.timestamp with _ | dt
    · simp [build_html_content, entry_block_err hx]
    · have het : e ∈ t := by
        rcases List.mem_cons.mp hmem with rfl | het
        · rw [h] at hx
          cases hx
        · exact het
      simp [build_html_content, entry_block, hx,
        build_html_content_err het h]

lemma build_html_content_ok : ∀ {l : List Entry},
    (∀ e ∈ l, (fromisoformat e.timestamp).isSome) →
    ∃ c, build_html_content l = .ok c
  | [], _ => ⟨"", rfl⟩
  | x :: t, h => by
    obtain ⟨dt, hdt⟩ := Option.isSome_iff_exists.mp
      (h x (List.mem_cons_self x t))
    obtain ⟨c, hc⟩ := build_html_content_ok
      (fun e he => h e (List.mem_cons_of_mem x he))
    rcases hbe : entry_block x with err | block
    · rw [entry_block, hdt] at hbe
      cases hbe
    · exact ⟨block ++ c, by simp [build_html_content, hbe, hc]⟩

/-- Claim C10: the renderer produces its per-entry blocks only when every
entry timestamp parses with `fromisoformat`; if any entry has a timestamp
that does not parse, the whole render fails with the uncaught `ValueError`
— before the save dialog, so no document is written — instead of reporting
a failure outcome to the caller. -/
theorem claim10_render_parse_precondition (es : List Entry)
    (dialogPath : Option String) (writeOk : Bool) :
    ((∃ e ∈ es, fromisoformat e.timestamp = none) →
      generate_html_file (Doc.entryList es) dialogPath writeOk =
        .error PyError.valueError ∧
      ∀ p c, generate_html_file (Doc.entryList es) dialogPath writeOk ≠
        .ok (RenderOutcome.written p c)) ∧
    ((∀ e ∈ es, (fromisoformat e.timestamp).isSome) →
      ∃ c, build_html_content (sortDesc es) = .ok c) := by
  constructor
  · intro h
    obtain ⟨e, he, hnone⟩ := h
    have hmem : e ∈ sortDesc es := mem_sortDesc.mpr he
    have hE : (sortDesc es).isEmpty = false := by
      rcases hs : sortDesc es with _ | ⟨a, t⟩
      · rw [hs] at hmem
        cases hmem
      · rfl
    have hg : generate_html_file (Doc.entryList es) dialogPath writeOk =
        .error PyError.valueError := by
      simp [generate_html_file, load_changelog, hE,
        build_html_content_err hmem hnone]
    exact ⟨hg, fun p c hc => by rw [hg] at hc; cases hc⟩
  · intro h
    exact build_html_content_ok
      (fun e he => h e (mem_sortDesc.mp he))

/-- Witness for C10: rendering a store holding the timestamp "not-a-date"
fails with the uncaught `ValueError`. -/
theorem claim10_witness :
    (∃ e ∈ ([⟨"not-a-date", "Created", "hi"⟩] : List Entry),
      fromisoformat e.timestamp = none) ∧
    generate_html_file (Doc.entryList [⟨"not-a-date", "Created", "hi"⟩])
      (some "out.html") true = .error PyError.valueError :=
  ⟨by decide,
   ((claim10_render_parse_precondition [⟨"not-a-date", "Created", "hi"⟩]
      (some "out.html") true).1 (by decide)).1⟩
